import Mathlib

/-!
Verification of the goclassifyit banner compositor (src/main.go) against its
natural-language specification.

The embedding models the pure content of `processImage` and `processDirectory`
from src/main.go:
  * colors as `RGBA` records of naturals (Go `color.RGBA` bytes);
  * rectangles and images as in Go's `image` package (`image.Rect` with its
    min/max canonicalisation, `image.NewRGBA` zero-initialised, bounds-checked
    `At`);
  * `draw.Draw` with the `draw.Src` operator and a nil mask, including the
    clipping that Go's `image/draw.clip` performs against the destination
    bounds and the (translated) source bounds, and `image.Uniform` with its
    huge-but-finite bounds (±10^9);
  * the canvas construction of processImage lines 222-243 as `buildCanvas`;
  * the label-placement switch of lines 252-289 as `computeLabels`, with the
    externally measured text width passed in as a parameter (the font
    rasterizer is an external collaborator);
  * the format gate and encode switch (lines 217-219 and 305-310) in
    `processImagePure`;
  * the directory loop of `processDirectory` (lines 162-187) with the
    per-file pipeline abstracted as a boolean oracle.

Go's integer division truncates toward zero; it is embedded as `Int.tdiv`.
-/

namespace GoClassify

/-- A pixel color, modelling Go `color.RGBA` (four bytes; values produced by
the program are always in [0,255]). -/
structure RGBA where
  r : Nat
  g : Nat
  b : Nat
  a : Nat
deriving DecidableEq, Repr

/-- The zero `color.RGBA{}` value. -/
def RGBA.zero : RGBA := ⟨0, 0, 0, 0⟩

/-- Go `image.Point`. -/
structure Pt where
  x : Int
  y : Int
deriving DecidableEq, Repr

/-- Go `image.Rectangle` (min inclusive, max exclusive). -/
structure Rect where
  minX : Int
  minY : Int
  maxX : Int
  maxY : Int
deriving DecidableEq, Repr

/-- Go `image.Rect(x0,y0,x1,y1)`: swaps the coordinates when given in the
wrong order, producing a canonical rectangle. -/
def Rect.make (x0 y0 x1 y1 : Int) : Rect :=
  let xs := if x0 > x1 then (x1, x0) else (x0, x1)
  let ys := if y0 > y1 then (y1, y0) else (y0, y1)
  ⟨xs.1, ys.1, xs.2, ys.2⟩

/-- Go `Rectangle.Dx()`. -/
def Rect.dx (r : Rect) : Int := r.maxX - r.minX

/-- Go `Rectangle.Dy()`. -/
def Rect.dy (r : Rect) : Int := r.maxY - r.minY

/-- Membership of the point (x,y) in a rectangle, Go `Point.In`. -/
def Rect.memb (r : Rect) (x y : Int) : Prop :=
  r.minX ≤ x ∧ x < r.maxX ∧ r.minY ≤ y ∧ y < r.maxY

instance (r : Rect) (x y : Int) : Decidable (Rect.memb r x y) := by
  unfold Rect.memb; infer_instance

/-- Go `Rectangle.Intersect`.  Go normalises an empty intersection to the
zero rectangle `ZR`; the component-wise max/min below has exactly the same
members (none, when empty), which is all the drawing semantics reads. -/
def Rect.inter (r s : Rect) : Rect :=
  ⟨max r.minX s.minX, max r.minY s.minY, min r.maxX s.maxX, min r.maxY s.maxY⟩

/-- Go `Rectangle.Add(p)`: translate a rectangle by a point. -/
def Rect.addPt (r : Rect) (p : Pt) : Rect :=
  ⟨r.minX + p.x, r.minY + p.y, r.maxX + p.x, r.maxY + p.y⟩

/-- An image: declared bounds plus a total pixel function.  `px` is the raw
pixel store; the bounds-checked accessor mirroring Go's `RGBA.At` is
`Image.At` below.  Pixel values are the `color.RGBA` conversions of whatever
the Go image returns from `At`. -/
structure Image where
  bounds : Rect
  px : Int → Int → RGBA

/-- Go `image.NewRGBA(r)`: fresh image, every pixel the zero RGBA. -/
def newRGBA (r : Rect) : Image := ⟨r, fun _ _ => RGBA.zero⟩

/-- Bounds-checked pixel read, Go `(*RGBA).At`: zero outside bounds. -/
def Image.At (img : Image) (x y : Int) : RGBA :=
  if Rect.memb img.bounds x y then img.px x y else RGBA.zero

/-- Go `image.Uniform` has bounds `Rect(-1e9, -1e9, 1e9, 1e9)`. -/
def uniformBounds : Rect := ⟨-(10^9 : Int), -(10^9 : Int), 10^9, 10^9⟩

/-- Go `image.Uniform{c}`: an infinite-color image (its `At` ignores the
coordinates), with the ±10^9 declared bounds used by clipping. -/
def uniform (c : RGBA) : Image := ⟨uniformBounds, fun _ _ => c⟩

/-- Go `draw.Draw(dst, r, src, sp, draw.Src)` (nil mask).  `image/draw.clip`
intersects `r` with `dst.Bounds()` and with `src.Bounds().Add(orig.Sub(sp))`
where `orig` is the original `r.Min`; inside the clipped rectangle the
destination pixel at (x,y) becomes the source pixel at
`(sp.X + (x - orig.X), sp.Y + (y - orig.Y))`, copied verbatim (Src operator:
overwrite, no blending). -/
def drawSrc (dst : Image) (r : Rect) (src : Image) (sp : Pt) : Image :=
  let orig : Pt := ⟨r.minX, r.minY⟩
  let r1 := Rect.inter r dst.bounds
  let r2 := Rect.inter r1 (Rect.addPt src.bounds ⟨orig.x - sp.x, orig.y - sp.y⟩)
  { bounds := dst.bounds
    px := fun x y =>
      if Rect.memb r2 x y then src.px (sp.x + (x - orig.x)) (sp.y + (y - orig.y))
      else dst.px x y }

/-- Go integer division (`/` on int) truncates toward zero. -/
def goDiv (a b : Int) : Int := Int.tdiv a b

/-- `BannerMode` from src/main.go: background color, text color, label text. -/
structure BannerMode where
  BgColor : RGBA
  TextColor : RGBA
  Text : String
deriving DecidableEq, Repr

/-- The predefined `bannerModes` map of src/main.go (lines 31-36). -/
def bannerModes (s : String) : Option BannerMode :=
  if s = "cui" then some ⟨⟨0, 255, 0, 255⟩, ⟨0, 0, 0, 255⟩, "CUI"⟩
  else if s = "secret" then some ⟨⟨255, 0, 0, 255⟩, ⟨255, 255, 255, 255⟩, "SECRET"⟩
  else if s = "unclassed" then some ⟨⟨0, 0, 0, 255⟩, ⟨255, 255, 255, 255⟩, "UNCLASSIFIED"⟩
  else if s = "custom" then some ⟨⟨255, 255, 255, 255⟩, ⟨0, 0, 0, 255⟩, "CUSTOM"⟩
  else none

/-- Canvas construction, processImage lines 222-243: allocate a taller RGBA
canvas, fill the two banner rectangles with the background color (draw.Src),
then composite the source image into the middle band, sourcing from
`bounds.Min`. -/
def buildCanvas (img : Image) (banner : BannerMode) (bannerHeight : Int) : Image :=
  let bounds := img.bounds
  let width := bounds.dx
  let height := bounds.dy
  let newHeight := height + 2 * bannerHeight
  let newImg := newRGBA (Rect.make 0 0 width newHeight)
  let topBanner := Rect.make 0 0 width bannerHeight
  let bottomBanner := Rect.make 0 (newHeight - bannerHeight) width newHeight
  let i1 := drawSrc newImg topBanner (uniform banner.BgColor) ⟨0, 0⟩
  let i2 := drawSrc i1 bottomBanner (uniform banner.BgColor) ⟨0, 0⟩
  drawSrc i2 (Rect.make 0 bannerHeight width (bannerHeight + height)) img
    ⟨bounds.minX, bounds.minY⟩

/-- One recorded `addLabel` call (processImage lines 348-359): the external
font drawer is asked to draw `text` with its dot anchored at `(x, y)` in the
color `col`.  Glyph rasterisation itself happens in the external
`golang.org/x/image/font` collaborator and only touches glyph-ink pixels. -/
structure Label where
  text : String
  x : Int
  y : Int
  col : RGBA
deriving DecidableEq, Repr

/-- The corners-mode horizontal margin, processImage line 255:
`marginX := int(0.05 * float64(width))`.  Go's float-to-int conversion
truncates toward zero.  The IEEE-754 double nearest to 0.05 is
0.05 + δ with δ ≈ 2.776e-18, so for the nonnegative widths of any decodable
image (far below 10^15) the rounded product `0.05 * float64(width)` lies
strictly between width/20 and the next multiple of 1/20, and truncating it
yields exactly ⌊width/20⌋, i.e. `width/20` in Go integer division.
(Concretely: for width = 100 the product is exactly 5.0, giving 5; for
width = 30 the product is exactly 1.5, giving 1.) -/
def marginX (width : Int) : Int := goDiv width 20

/-- The label-placement switch, processImage lines 252-289, recording the
`addLabel` calls in program order.  `txtWidth` is the measured text width
returned by the external font collaborator (`measureText`); `newHeight` is
the output canvas height.  The Go `switch loc` has a `"corners"` case and a
`default` covering `"center"` and every other value. -/
def computeLabels (text : String) (txtCol : RGBA) (width newHeight bannerHeight txtWidth : Int)
    (loc : String) : List Label :=
  if loc = "corners" then
    let mX := marginX width
    let topY := goDiv bannerHeight 2 + 10
    let botY := (newHeight - goDiv bannerHeight 2) + 10
    [⟨text, mX, topY, txtCol⟩,
     ⟨text, width - mX - txtWidth, topY, txtCol⟩,
     ⟨text, mX, botY, txtCol⟩,
     ⟨text, width - mX - txtWidth, botY, txtCol⟩]
  else
    let topY := goDiv bannerHeight 2 + 10
    let botY := (newHeight - goDiv bannerHeight 2) + 10
    let centerX := goDiv width 2 - goDiv txtWidth 2
    [⟨text, centerX, topY, txtCol⟩,
     ⟨text, centerX, botY, txtCol⟩]

/-- The errors the pure part of processImage can raise.  The only pure check
before the canvas work is the format gate at lines 217-219; every other
`error` return in processImage is file-system or font I/O by an external
collaborator.  processImage performs no dimension validation. -/
inductive ProcError where
  | unsupportedFormat (format : String)
deriving DecidableEq, Repr

/-- The result of the pure pipeline: the composited canvas, the sequence of
label-draw calls, and the format the encode switch (lines 305-310) selects:
`jpeg.Encode` for "jpeg", `png.Encode` for "png". -/
structure Annotated where
  canvas : Image
  labels : List Label
  outFormat : String

/-- The pure content of `processImage` (src/main.go lines 190-316): format
gate (lines 217-219), canvas construction (222-243), label placement
(252-289), and the choice of encoder (305-310).  Decoding, font loading and
all file I/O are external; `txtWidth` stands for `measureText face Text`. -/
def processImagePure (img : Image) (format : String) (banner : BannerMode)
    (bannerHeight : Int) (loc : String) (txtWidth : Int) : Except ProcError Annotated :=
  if format ≠ "jpeg" ∧ format ≠ "png" then
    .error (.unsupportedFormat format)
  else
    let width := img.bounds.dx
    let newHeight := img.bounds.dy + 2 * bannerHeight
    .ok ⟨buildCanvas img banner bannerHeight,
         computeLabels banner.Text banner.TextColor width newHeight bannerHeight txtWidth loc,
         format⟩

/-- One entry returned by Go `os.ReadDir`. -/
structure DirEntry where
  name : String
  isDir : Bool
deriving DecidableEq, Repr

/-- The loop body of `processDirectory` (src/main.go lines 170-181), folded
over the directory listing.  The accumulator carries the names handed to
`processImage` so far (in order) and the `hasErrors` flag; `proc name`
abstracts the success of `processImage(filepath.Join(dirPath, name), ...)`.
Directories are skipped; a failure sets `hasErrors` and the loop continues. -/
def dirLoopStep (proc : String → Bool) (acc : List String × Bool) (f : DirEntry) :
    List String × Bool :=
  if !f.isDir then (acc.1 ++ [f.name], acc.2 || !proc f.name) else acc

def processDirectoryLoop (files : List DirEntry) (proc : String → Bool) :
    List String × Bool :=
  files.foldl (dirLoopStep proc) ([], false)

/-- `processDirectory` (src/main.go lines 162-187): runs the loop, then
returns the aggregate error exactly when some file failed.  The names the
loop processed are returned in the ok case for specification purposes (Go
returns nil). -/
def processDirectory (files : List DirEntry) (proc : String → Bool) :
    Except String (List String) :=
  let r := processDirectoryLoop files proc
  if r.2 then .error "some images failed to process" else .ok r.1

/-- Translate an image: identical pixel content and size, with the declared
bounds shifted by (dx, dy).  This models a Go image whose `Bounds()` does not
start at the origin (such as a `SubImage`) but whose content is the same. -/
def Image.translate (img : Image) (dx dy : Int) : Image :=
  ⟨Rect.addPt img.bounds ⟨dx, dy⟩, fun x y => img.px (x - dx) (y - dy)⟩

/-- `true` exactly when the pure pipeline produced an output. -/
def isOkB : Except ProcError Annotated → Bool
  | .ok _ => true
  | .error _ => false

/-- The output format of the pure pipeline, if it produced one. -/
def outFormatOf : Except ProcError Annotated → Option String
  | .ok a => some a.outFormat
  | .error _ => none

/-- A concrete 1×1 source bitmap used to instantiate universally quantified
theorems at a specific input. -/
def testImg : Image := ⟨⟨0, 0, 1, 1⟩, fun _ _ => ⟨7, 8, 9, 255⟩⟩

/-- A concrete 100×50 source bitmap (the scenario of the spec). -/
def testImg100 : Image := ⟨⟨0, 0, 100, 50⟩, fun x y => ⟨(x.toNat % 256), (y.toNat % 256), 3, 255⟩⟩

/-- The "cui" banner mode of src/main.go line 32. -/
def cuiBanner : BannerMode := ⟨⟨0, 255, 0, 255⟩, ⟨0, 0, 0, 255⟩, "CUI"⟩

/- ### Supporting lemmas -/

theorem Rect.make_eq (x0 y0 x1 y1 : Int) (hx : x0 ≤ x1) (hy : y0 ≤ y1) :
    Rect.make x0 y0 x1 y1 = ⟨x0, y0, x1, y1⟩ := by
  unfold Rect.make
  rw [if_neg (by omega), if_neg (by omega)]

/-- The canvas has the declared bounds `Rect(0, 0, width, newHeight)`. -/
theorem buildCanvas_bounds (img : Image) (banner : BannerMode) (bh : Int)
    (hcx : img.bounds.minX ≤ img.bounds.maxX) (hcy : img.bounds.minY ≤ img.bounds.maxY)
    (hbh : 0 ≤ bh) :
    (buildCanvas img banner bh).bounds = ⟨0, 0, img.bounds.dx, img.bounds.dy + 2 * bh⟩ := by
  simp only [buildCanvas, drawSrc, newRGBA]
  rw [Rect.make_eq _ _ _ _ (by simp [Rect.dx]; omega) (by simp [Rect.dx, Rect.dy]; omega)]

/-- Complete characterisation of the canvas pixel store for a canonical
source and nonnegative banner height, straight from the three `draw.Draw`
calls: the middle band holds the source pixels (read from `bounds.Min`), the
bottom and top banner rectangles hold the background color (clipped, as in
Go, against the ±10^9 bounds of `image.Uniform`), and everything else is the
zero of the freshly allocated RGBA buffer. -/
theorem buildCanvas_px (img : Image) (banner : BannerMode) (bh : Int)
    (hcx : img.bounds.minX ≤ img.bounds.maxX) (hcy : img.bounds.minY ≤ img.bounds.maxY)
    (hbh : 0 ≤ bh) (x y : Int) :
    (buildCanvas img banner bh).px x y =
      if 0 ≤ x ∧ x < img.bounds.dx ∧ bh ≤ y ∧ y < bh + img.bounds.dy then
        img.px (img.bounds.minX + x) (img.bounds.minY + (y - bh))
      else if 0 ≤ x ∧ x < min img.bounds.dx (10^9) ∧ img.bounds.dy + bh ≤ y ∧
          y < min (img.bounds.dy + 2 * bh) (img.bounds.dy + bh + 10^9) then
        banner.BgColor
      else if 0 ≤ x ∧ x < min img.bounds.dx (10^9) ∧ 0 ≤ y ∧ y < min bh (10^9) then
        banner.BgColor
      else RGBA.zero := by
  obtain ⟨⟨bx0, by0, bx1, by1⟩, f⟩ := img
  simp only [Rect.dx, Rect.dy] at hcx hcy ⊢
  simp only [buildCanvas, drawSrc, newRGBA, uniform, uniformBounds, Rect.dx, Rect.dy]
  rw [Rect.make_eq 0 0 (bx1 - bx0) (by1 - by0 + 2 * bh) (by omega) (by omega),
      Rect.make_eq 0 0 (bx1 - bx0) bh (by omega) (by omega),
      Rect.make_eq 0 (by1 - by0 + 2 * bh - bh) (bx1 - bx0) (by1 - by0 + 2 * bh)
        (by omega) (by omega),
      Rect.make_eq 0 bh (bx1 - bx0) (bh + (by1 - by0)) (by omega) (by omega)]
  simp only [Rect.inter, Rect.addPt, Rect.memb]
  split_ifs <;> first
    | rfl
    | omega
    | (congr 1 <;> omega)

/- ### Claim theorems -/

/-- C1: for every valid source bitmap (canonical bounds) and banner spec
(positive banner height), the annotated canvas has width equal to the source
width and height equal to source.height + 2×bannerHeightPx. -/
theorem C1_output_dimensions (img : Image) (banner : BannerMode) (bh : Int)
    (hcx : img.bounds.minX ≤ img.bounds.maxX) (hcy : img.bounds.minY ≤ img.bounds.maxY)
    (hbh : 0 < bh) :
    (buildCanvas img banner bh).bounds.dx = img.bounds.dx ∧
    (buildCanvas img banner bh).bounds.dy = img.bounds.dy + 2 * bh := by
  rw [buildCanvas_bounds img banner bh hcx hcy (le_of_lt hbh)]
  simp [Rect.dx, Rect.dy]

theorem C1_witness :
    (buildCanvas testImg cuiBanner 60).bounds.dx = testImg.bounds.dx ∧
    (buildCanvas testImg cuiBanner 60).bounds.dy = testImg.bounds.dy + 2 * 60 :=
  C1_output_dimensions testImg cuiBanner 60 (by decide) (by decide) (by decide)

/-- C2: every output pixel of the middle band (rows bannerHeight ≤ y <
bannerHeight + source.height) is the source pixel at (x, y − bannerHeight),
copied verbatim (draw.Src: the whole RGBA value, alpha included, with no
blending). -/
theorem C2_middle_band_copy (img : Image) (banner : BannerMode) (bh w h x y : Int)
    (hb : img.bounds = ⟨0, 0, w, h⟩) (hw : 0 < w) (hh : 0 < h) (hbh : 0 < bh)
    (hx1 : 0 ≤ x) (hx2 : x < w) (hy1 : bh ≤ y) (hy2 : y < bh + h) :
    (buildCanvas img banner bh).At x y = img.At x (y - bh) := by
  have h0 : (0:Int) ≤ bh := le_of_lt hbh
  have hcx : img.bounds.minX ≤ img.bounds.maxX := by rw [hb]; dsimp only; omega
  have hcy : img.bounds.minY ≤ img.bounds.maxY := by rw [hb]; dsimp only; omega
  unfold Image.At
  rw [buildCanvas_bounds img banner bh hcx hcy h0, buildCanvas_px img banner bh hcx hcy h0]
  rw [hb]
  simp only [Rect.memb, Rect.dx, Rect.dy]
  rw [if_pos (by omega), if_pos (by omega), if_pos (by omega)]
  congr 1 <;> omega

theorem C2_witness :
    (buildCanvas testImg cuiBanner 1).At 0 1 = testImg.At 0 (1 - 1) :=
  C2_middle_band_copy testImg cuiBanner 1 1 1 0 1 rfl (by decide) (by decide)
    (by decide) (by decide) (by decide) (by decide) (by decide)

/-- C3: every output pixel of the top band (y < bannerHeight) and of the
bottom band (y ≥ outputHeight − bannerHeight) equals the banner background
color, written by unconditional overwrite (draw.Src), with fully opaque
alpha.  The glyph renderer, an external collaborator modelled by the
`Label` list, only touches glyph-ink pixels afterwards, so this is the value
away from glyph ink.  Both bands are assumed within the ±10^9 bounds of
Go image.Uniform (true of any decodable image); backgrounds constructed by
the program (`bannerModes`, `parseRGB`) always have alpha 255. -/
theorem C3_banner_fill (img : Image) (banner : BannerMode) (bh w h x y : Int)
    (hb : img.bounds = ⟨0, 0, w, h⟩) (hw : 0 < w) (hh : 0 < h) (hbh : 0 < bh)
    (hw9 : w ≤ 10^9) (hh9 : h + 2 * bh ≤ 10^9)
    (ha : banner.BgColor.a = 255)
    (hx1 : 0 ≤ x) (hx2 : x < w)
    (hy : (0 ≤ y ∧ y < bh) ∨ (h + bh ≤ y ∧ y < h + 2 * bh)) :
    (buildCanvas img banner bh).At x y = banner.BgColor ∧
    ((buildCanvas img banner bh).At x y).a = 255 := by
  have h0 : (0:Int) ≤ bh := le_of_lt hbh
  have hcx : img.bounds.minX ≤ img.bounds.maxX := by rw [hb]; dsimp only; omega
  have hcy : img.bounds.minY ≤ img.bounds.maxY := by rw [hb]; dsimp only; omega
  have main : (buildCanvas img banner bh).At x y = banner.BgColor := by
    unfold Image.At
    rw [buildCanvas_bounds img banner bh hcx hcy h0, buildCanvas_px img banner bh hcx hcy h0]
    rw [hb]
    simp only [Rect.memb, Rect.dx, Rect.dy]
    rcases hy with hy | hy
    · rw [if_pos (by omega), if_neg (by omega), if_neg (by omega), if_pos (by omega)]
    · rw [if_pos (by omega), if_neg (by omega), if_pos (by omega)]
  exact ⟨main, by rw [main]; exact ha⟩

theorem C3_witness :
    (buildCanvas testImg cuiBanner 1).At 0 0 = cuiBanner.BgColor ∧
    ((buildCanvas testImg cuiBanner 1).At 0 0).a = 255 :=
  C3_banner_fill testImg cuiBanner 1 1 1 0 0 rfl (by decide) (by decide) (by decide)
    (by decide) (by decide) (by decide) (by decide) (by decide)
    (Or.inl (by constructor <;> decide))

/-- C10: the canvas bounds start at the origin, and the construction reads
the source from its minimum bound: translating the source bounds (same
pixel content, shifted origin) leaves the canvas bounds and every canvas
pixel unchanged. -/
theorem C10_translation_invariant (img : Image) (banner : BannerMode) (bh dx0 dy0 : Int)
    (hcx : img.bounds.minX ≤ img.bounds.maxX) (hcy : img.bounds.minY ≤ img.bounds.maxY)
    (hbh : 0 ≤ bh) :
    (buildCanvas img banner bh).bounds.minX = 0 ∧
    (buildCanvas img banner bh).bounds.minY = 0 ∧
    (buildCanvas (img.translate dx0 dy0) banner bh).bounds = (buildCanvas img banner bh).bounds ∧
    ∀ x y, (buildCanvas (img.translate dx0 dy0) banner bh).px x y =
      (buildCanvas img banner bh).px x y := by
  have hcx2 : (img.translate dx0 dy0).bounds.minX ≤ (img.translate dx0 dy0).bounds.maxX := by
    simp only [Image.translate, Rect.addPt]; omega
  have hcy2 : (img.translate dx0 dy0).bounds.minY ≤ (img.translate dx0 dy0).bounds.maxY := by
    simp only [Image.translate, Rect.addPt]; omega
  refine ⟨?_, ?_, ?_, ?_⟩
  · rw [buildCanvas_bounds img banner bh hcx hcy hbh]
  · rw [buildCanvas_bounds img banner bh hcx hcy hbh]
  · rw [buildCanvas_bounds _ banner bh hcx2 hcy2 hbh,
        buildCanvas_bounds img banner bh hcx hcy hbh]
    simp only [Image.translate, Rect.addPt, Rect.dx, Rect.dy]
    congr 1 <;> omega
  · intro x y
    rw [buildCanvas_px _ banner bh hcx2 hcy2 hbh, buildCanvas_px img banner bh hcx hcy hbh]
    simp only [Image.translate, Rect.addPt, Rect.dx, Rect.dy]
    split_ifs <;> first
      | rfl
      | omega
      | (congr 1 <;> omega)

/-- If the banner height argument is nonnegative, `goDiv` agrees with
mathematical (Euclidean) division. -/
theorem goDiv_eq_ediv (a b : Int) (ha : 0 ≤ a) (hb : 0 ≤ b) : goDiv a b = a / b := by
  unfold goDiv
  rw [Int.tdiv_eq_ediv ha hb]

/-- The label list for any placement value other than "corners" is the
center-mode label list (the Go switch default). -/
theorem computeLabels_default (text : String) (col : RGBA) (width nh bh tw : Int)
    (loc : String) (hloc : loc ≠ "corners") :
    computeLabels text col width nh bh tw loc =
      computeLabels text col width nh bh tw "center" := by
  unfold computeLabels
  rw [if_neg hloc, if_neg (by decide)]

/-- C5 counterexample: with bannerHeight = 61 (odd) and output height 132,
the bottom label anchor is 112, not the claimed
(bannerHeight/2 + 10) + (outputHeight − bannerHeight) = 111: the y anchors
are not [top, top + (outputHeight − bannerHeight)]. -/
theorem C5_counterexample :
    (computeLabels "CUI" ⟨0, 0, 0, 255⟩ 100 132 61 20 "center").map Label.y ≠
      [goDiv 61 2 + 10, (goDiv 61 2 + 10) + (132 - 61)] := by decide

/-- C5 (amended): in both placement modes the top anchor is
bannerHeight/2 + 10 and the bottom anchor is
(outputHeight − bannerHeight/2) + 10, the same +10 baseline nudge top and
bottom; the bottom anchor equals the top anchor offset by
outputHeight − bannerHeight exactly when the banner height is even. -/
theorem C5_vertical_anchors (text : String) (col : RGBA) (width nh bh tw : Int)
    (loc : String) :
    ((computeLabels text col width nh bh tw loc).map Label.y =
      if loc = "corners" then
        [goDiv bh 2 + 10, goDiv bh 2 + 10, (nh - goDiv bh 2) + 10, (nh - goDiv bh 2) + 10]
      else
        [goDiv bh 2 + 10, (nh - goDiv bh 2) + 10]) ∧
    (0 ≤ bh → bh % 2 = 0 →
      (nh - goDiv bh 2) + 10 = (goDiv bh 2 + 10) + (nh - bh)) := by
  constructor
  · unfold computeLabels
    split_ifs <;> simp
  · intro h0 h2
    rw [goDiv_eq_ediv bh 2 h0 (by omega)]
    omega

theorem C5_witness :
    ((computeLabels "CUI" ⟨0, 0, 0, 255⟩ 100 170 60 20 "center").map Label.y =
      if "center" = "corners" then
        [goDiv 60 2 + 10, goDiv 60 2 + 10, (170 - goDiv 60 2) + 10, (170 - goDiv 60 2) + 10]
      else
        [goDiv 60 2 + 10, (170 - goDiv 60 2) + 10]) ∧
    (0 ≤ (60:Int) → (60:Int) % 2 = 0 →
      ((170:Int) - goDiv 60 2) + 10 = (goDiv 60 2 + 10) + (170 - 60)) :=
  C5_vertical_anchors "CUI" ⟨0, 0, 0, 255⟩ 100 170 60 20 "center"

/-- The margin as the spec words it: round(0.05 × imageWidth), the nearest
integer to width/20 with half rounding up (at the counterexample width 30
the exact value 1.5 rounds to 2 under every common tie convention). -/
def marginRoundSpec (width : Int) : Int := (width + 10) / 20

/-- C6 counterexample: at imageWidth = 30 the code places the left corner
labels at x = int(0.05·30) = int(1.5) = 1, but round(0.05×30) = 2: the x
positions are not the ones the claim derives from a rounded margin. -/
theorem C6_counterexample :
    (computeLabels "CUI" ⟨0, 0, 0, 255⟩ 30 170 60 20 "corners").map Label.x ≠
      [marginRoundSpec 30, 30 - marginRoundSpec 30 - 20,
       marginRoundSpec 30, 30 - marginRoundSpec 30 - 20] := by decide

/-- C6 (amended): corners mode places exactly 4 labels, all with the same
text and color; the horizontal margin is the truncation of 0.05×imageWidth
(⌊imageWidth/20⌋, not round); left labels sit at x = margin and right
labels at x = imageWidth − margin − textWidth. -/
theorem C6_corner_placement (text : String) (col : RGBA) (width nh bh tw : Int) :
    (computeLabels text col width nh bh tw "corners").length = 4 ∧
    (∀ l ∈ computeLabels text col width nh bh tw "corners",
      l.text = text ∧ l.col = col) ∧
    (computeLabels text col width nh bh tw "corners").map Label.x =
      [marginX width, width - marginX width - tw,
       marginX width, width - marginX width - tw] := by
  refine ⟨?_, ?_, ?_⟩
  · unfold computeLabels
    rw [if_pos rfl]
    rfl
  · unfold computeLabels
    rw [if_pos rfl]
    intro l hl
    simp only [List.mem_cons, List.not_mem_nil, or_false] at hl
    rcases hl with h | h | h | h <;> subst h <;> exact ⟨rfl, rfl⟩
  · unfold computeLabels
    rw [if_pos rfl]
    simp [marginX]

theorem C6_witness :
    (∀ l ∈ computeLabels "CUI" ⟨0, 0, 0, 255⟩ 100 170 60 20 "corners",
      l.text = "CUI" ∧ l.col = ⟨0, 0, 0, 255⟩) ∧
    (computeLabels "CUI" ⟨0, 0, 0, 255⟩ 100 170 60 20 "corners").map Label.x =
      [marginX 100, 100 - marginX 100 - 20, marginX 100, 100 - marginX 100 - 20] :=
  ⟨(C6_corner_placement "CUI" ⟨0, 0, 0, 255⟩ 100 170 60 20).2.1,
   (C6_corner_placement "CUI" ⟨0, 0, 0, 255⟩ 100 170 60 20).2.2⟩

/-- C7: center mode places exactly 2 labels, each at
x = imageWidth/2 − textWidth/2 (Go integer division); every placement value
other than "corners" takes the same default branch, so an unknown placement
behaves exactly like center mode and, for a supported format, the whole
per-image pipeline returns the same output and never fails. -/
theorem C7_center_and_fallback (text : String) (col : RGBA) (width nh bh tw : Int)
    (loc : String) (hloc : loc ≠ "corners") :
    computeLabels text col width nh bh tw loc =
      computeLabels text col width nh bh tw "center" ∧
    (computeLabels text col width nh bh tw "center").length = 2 ∧
    (∀ l ∈ computeLabels text col width nh bh tw "center",
      l.x = goDiv width 2 - goDiv tw 2) ∧
    (∀ (img : Image) (format : String) (banner : BannerMode),
      processImagePure img format banner bh loc tw =
        processImagePure img format banner bh "center" tw) ∧
    (∀ (img : Image) (banner : BannerMode),
      isOkB (processImagePure img "png" banner bh loc tw) = true) := by
  refine ⟨computeLabels_default text col width nh bh tw loc hloc, rfl, ?_, ?_, ?_⟩
  · intro l hl
    unfold computeLabels at hl
    rw [if_neg (by decide)] at hl
    simp only [List.mem_cons, List.not_mem_nil, or_false] at hl
    rcases hl with h | h <;> subst h <;> rfl
  · intro img format banner
    simp only [processImagePure]
    rw [computeLabels_default banner.Text banner.TextColor img.bounds.dx
      (img.bounds.dy + 2 * bh) bh tw loc hloc]
  · intro img banner
    simp only [processImagePure]
    rw [if_neg (by simp)]
    rfl

theorem C7_witness :
    computeLabels "CUI" ⟨0, 0, 0, 255⟩ 100 170 60 20 "weird" =
      computeLabels "CUI" ⟨0, 0, 0, 255⟩ 100 170 60 20 "center" ∧
    (computeLabels "CUI" ⟨0, 0, 0, 255⟩ 100 170 60 20 "center").length = 2 ∧
    (∀ l ∈ computeLabels "CUI" ⟨0, 0, 0, 255⟩ 100 170 60 20 "center",
      l.x = goDiv 100 2 - goDiv 20 2) ∧
    (∀ (img : Image) (format : String) (banner : BannerMode),
      processImagePure img format banner 60 "weird" 20 =
        processImagePure img format banner 60 "center" 20) ∧
    (∀ (img : Image) (banner : BannerMode),
      isOkB (processImagePure img "png" banner 60 "weird" 20) = true) :=
  C7_center_and_fallback "CUI" ⟨0, 0, 0, 255⟩ 100 170 60 20 "weird" (by decide)

theorem C10_witness :
    (buildCanvas testImg cuiBanner 60).bounds.minX = 0 ∧
    (buildCanvas testImg cuiBanner 60).bounds.minY = 0 ∧
    (buildCanvas (testImg.translate 5 (-3)) cuiBanner 60).bounds =
      (buildCanvas testImg cuiBanner 60).bounds ∧
    ∀ x y, (buildCanvas (testImg.translate 5 (-3)) cuiBanner 60).px x y =
      (buildCanvas testImg cuiBanner 60).px x y :=
  C10_translation_invariant testImg cuiBanner 60 5 (-3) (by decide) (by decide) (by decide)

/-- C4 counterexample: with bannerHeight = 0 (≤ 0) and a valid 1×1 PNG
source, processImage performs no dimension validation and still produces an
output bitmap: the pure pipeline returns ok, it does not fail with any
InvalidDimension error (no such error exists anywhere in the code). -/
theorem C4_counterexample :
    isOkB (processImagePure testImg "png" cuiBanner 0 "center" 20) = true := by rfl

/-- C4 (amended): the code validates only the decoded format, never the
banner height or the source dimensions: for a supported format the
annotation succeeds and produces an output bitmap for every banner height
(including bannerHeight ≤ 0) and every source, degenerate or not. -/
theorem C4_no_dimension_error (img : Image) (banner : BannerMode) (bh tw : Int)
    (loc format : String) (hfmt : format = "jpeg" ∨ format = "png") :
    isOkB (processImagePure img format banner bh loc tw) = true := by
  unfold processImagePure
  rw [if_neg (by rcases hfmt with h | h <;> simp [h])]
  rfl

theorem C4_witness :
    isOkB (processImagePure testImg "png" cuiBanner (-5) "center" 20) = true :=
  C4_no_dimension_error testImg cuiBanner (-5) 20 "center" "png" (Or.inr rfl)

/-- C9: the detected format is preserved end-to-end.  If the pipeline
produces an output, its encode format equals the decoded format; a format
other than the two supported ones is rejected with the unsupported-format
error before any annotation; and both supported formats are accepted and
re-encoded as themselves. -/
theorem C9_format_preserved (img : Image) (banner : BannerMode) (bh tw : Int)
    (loc format : String) :
    (∀ a : Annotated, processImagePure img format banner bh loc tw = Except.ok a →
      a.outFormat = format) ∧
    ((format ≠ "jpeg" ∧ format ≠ "png") →
      processImagePure img format banner bh loc tw =
        Except.error (ProcError.unsupportedFormat format)) ∧
    ((format = "jpeg" ∨ format = "png") →
      outFormatOf (processImagePure img format banner bh loc tw) = some format) := by
  unfold processImagePure
  by_cases hf : format ≠ "jpeg" ∧ format ≠ "png"
  · rw [if_pos hf]
    refine ⟨fun a ha => Except.noConfusion ha, fun _ => rfl, fun h => ?_⟩
    rcases h with h | h
    · exact absurd h hf.1
    · exact absurd h hf.2
  · rw [if_neg hf]
    refine ⟨fun a ha => ?_, fun h => absurd h hf, fun _ => rfl⟩
    injection ha with h
    rw [← h]

theorem C9_witness :
    outFormatOf (processImagePure testImg "png" cuiBanner 60 "center" 20) = some "png" :=
  (C9_format_preserved testImg cuiBanner 60 20 "center" "png").2.2 (Or.inr rfl)

/-- The directory fold, generalized over the accumulator: it hands every
non-directory entry (in order) to the per-file pipeline and ors the failure
flag across them. -/
theorem processDirectoryLoop_spec (files : List DirEntry) (proc : String → Bool)
    (acc : List String × Bool) :
    files.foldl (dirLoopStep proc) acc =
      (acc.1 ++ (files.filter (fun f => !f.isDir)).map DirEntry.name,
       acc.2 || files.any (fun f => !f.isDir && !proc f.name)) := by
  induction files generalizing acc with
  | nil => simp
  | cons f fs ih =>
    rw [List.foldl_cons, ih]
    cases hd : f.isDir <;>
      simp [dirLoopStep, hd, List.filter_cons, List.any_cons,
        List.append_assoc, Bool.or_assoc]

/-- Closed form of `processDirectoryLoop`. -/
theorem processDirectoryLoop_eq (files : List DirEntry) (proc : String → Bool) :
    processDirectoryLoop files proc =
      ((files.filter (fun f => !f.isDir)).map DirEntry.name,
       files.any (fun f => !f.isDir && !proc f.name)) := by
  unfold processDirectoryLoop
  rw [processDirectoryLoop_spec]
  simp

/-- C8: the batch driver hands exactly the non-directory entries of the
listing (in order, no recursion) to the per-file pipeline, regardless of
which of them fail — so every remaining file is still processed after a
failure — and the aggregate call fails exactly when at least one file
failed. -/
theorem C8_batch_driver (files : List DirEntry) (proc : String → Bool) :
    (processDirectoryLoop files proc).1 =
      (files.filter (fun f => !f.isDir)).map DirEntry.name ∧
    (processDirectory files proc = Except.error "some images failed to process" ↔
      ∃ f ∈ files, f.isDir = false ∧ proc f.name = false) ∧
    ((¬ ∃ f ∈ files, f.isDir = false ∧ proc f.name = false) →
      processDirectory files proc =
        Except.ok ((files.filter (fun f => !f.isDir)).map DirEntry.name)) := by
  have hmem : files.any (fun f => !f.isDir && !proc f.name) = true ↔
      ∃ f ∈ files, f.isDir = false ∧ proc f.name = false := by
    simp [List.any_eq_true]
  simp only [processDirectory]
  rw [processDirectoryLoop_eq files proc]
  dsimp only
  refine ⟨rfl, ?_, ?_⟩
  · cases hb : files.any (fun f => !f.isDir && !proc f.name)
    · rw [if_neg (by simp [hb])]
      constructor
      · intro h; exact Except.noConfusion h
      · intro h; exact absurd (hmem.mpr h) (by simp [hb])
    · rw [if_pos (by simp [hb])]
      exact ⟨fun _ => hmem.mp hb, fun _ => rfl⟩
  · intro h
    cases hb : files.any (fun f => !f.isDir && !proc f.name)
    · rw [if_neg (by simp [hb])]
    · exact absurd (hmem.mp hb) h

theorem C8_witness :
    (processDirectoryLoop
        [⟨"a.png", false⟩, ⟨"sub", true⟩, ⟨"bad.txt", false⟩, ⟨"b.png", false⟩]
        (fun n => !(n = "bad.txt"))).1 = ["a.png", "bad.txt", "b.png"] ∧
    processDirectory
        [⟨"a.png", false⟩, ⟨"sub", true⟩, ⟨"bad.txt", false⟩, ⟨"b.png", false⟩]
        (fun n => !(n = "bad.txt")) =
      Except.error "some images failed to process" :=
  ⟨by
    rw [(C8_batch_driver
        [⟨"a.png", false⟩, ⟨"sub", true⟩, ⟨"bad.txt", false⟩, ⟨"b.png", false⟩]
        (fun n => !(n = "bad.txt"))).1]
    decide,
   (C8_batch_driver
        [⟨"a.png", false⟩, ⟨"sub", true⟩, ⟨"bad.txt", false⟩, ⟨"b.png", false⟩]
        (fun n => !(n = "bad.txt"))).2.1.mpr
     ⟨⟨"bad.txt", false⟩, by decide, rfl, by decide⟩⟩

end GoClassify

namespace GoClassify

example : Rect.make 0 0 3 (-2) = ⟨0, -2, 3, 0⟩ := by decide
example : (newRGBA (Rect.make 0 0 2 2)).At 5 5 = RGBA.zero := by decide
example : (computeLabels "CUI" ⟨0,0,0,255⟩ 100 170 60 20 "center").length = 2 := by decide
example : (computeLabels "CUI" ⟨0,0,0,255⟩ 100 170 60 20 "corners").length = 4 := by decide
example : (computeLabels "CUI" ⟨0,0,0,255⟩ 30 170 60 20 "corners").map Label.x
    = [1, 30 - 1 - 20, 1, 30 - 1 - 20] := by decide

end GoClassify
